import Mathlib

set_option maxRecDepth 20000

/-!
Formal model of the DeepKlarity quiz-generation pipeline.

The definitions below are shallow embeddings of the code of the repository:
the Python service functions embedded in the implementation document
(validate_quiz_json, check_duplicate_questions, validate_question_grounding,
the generate_quiz retry loop, save_quiz_to_db, check_duplicate_url, the
word-count gate of the generate endpoint) and the React components
(QuizDisplay option highlighting, QuizHistory pagination).  Machine floats of
the source are modelled as exact rationals; Python exceptions are modelled
with Except / Option.
-/

/-! ### difflib.SequenceMatcher (Python standard library)

check_duplicate_questions computes
SequenceMatcher(None, q1, q2).ratio().  For the short strings involved
(far below the 200-character autojunk bound) difflib uses no junk
heuristic, so ratio is the plain Ratcliff-Obershelp score
2*M/T where M is the total size of the matching blocks and T the sum of
both lengths.  The definitions below follow difflib.find_longest_match and
get_matching_blocks directly. -/

/-- Positions (ascending) of character c in b: difflib's b2j lookup restricted
to one character. -/
def charPositions (b : List Char) (c : Char) : List Nat :=
  (List.range b.length).filter (fun j => b.getD j c == c)

/-- Lookup in the j2len association map, defaulting to 0 (difflib's
j2len.get(j-1, 0)). -/
def lookupLen (m : List (Nat × Nat)) (k : Nat) : Nat :=
  match m.find? (fun p => p.1 == k) with
  | some p => p.2
  | none => 0

/-- Inner scan of difflib.find_longest_match over the match positions js of
a single character a[i] (ascending), threading newj2len and the best block
(besti, bestj, bestsize).  Positions below blo are skipped, positions at or
beyond bhi stop the scan (Python continue / break). -/
def flmScan (j2len : List (Nat × Nat)) (i blo bhi : Nat) :
    List Nat → List (Nat × Nat) → (Nat × Nat × Nat) → (List (Nat × Nat)) × (Nat × Nat × Nat)
  | [], newm, best => (newm, best)
  | j :: js, newm, best =>
    if j < blo then flmScan j2len i blo bhi js newm best
    else if bhi ≤ j then (newm, best)
    else
      let k := (if j = 0 then 0 else lookupLen j2len (j - 1)) + 1
      let best2 := if best.2.2 < k then (i + 1 - k, j + 1 - k, k) else best
      flmScan j2len i blo bhi js ((j, k) :: newm) best2

/-- Outer loop of difflib.find_longest_match over the a-indices of the range,
rebuilding j2len at each step. -/
def flmLoop (a b : List Char) (blo bhi : Nat) :
    List Nat → List (Nat × Nat) → (Nat × Nat × Nat) → (Nat × Nat × Nat)
  | [], _, best => best
  | i :: is, j2len, best =>
    let js := charPositions b (a.getD i ' ')
    let (newm, best2) := flmScan j2len i blo bhi js [] best
    flmLoop a b blo bhi is newm best2

/-- difflib.SequenceMatcher.find_longest_match on ranges a[alo:ahi], b[blo:bhi]
with no junk (the junk-extension loops are no-ops without junk). -/
def find_longest_match (a b : List Char) (alo ahi blo bhi : Nat) : Nat × Nat × Nat :=
  flmLoop a b blo bhi (List.range' alo (ahi - alo)) [] (alo, blo, 0)

/-- Total size of the matching blocks of get_matching_blocks: the recursion
of difflib on both sides of the longest match.  The fuel argument bounds the
recursion depth; every recursive call strictly shrinks the ranges, so fuel
equal to the total length is always sufficient. -/
def matchesTotal (a b : List Char) : Nat → Nat → Nat → Nat → Nat → Nat
  | 0, _, _, _, _ => 0
  | fuel + 1, alo, ahi, blo, bhi =>
    let m := find_longest_match a b alo ahi blo bhi
    if m.2.2 == 0 then 0
    else
      matchesTotal a b fuel alo m.1 blo m.2.1 + m.2.2 +
        matchesTotal a b fuel (m.1 + m.2.2) ahi (m.2.1 + m.2.2) bhi

/-- Matched-character count M and total length T of
SequenceMatcher(None, s, t): ratio() is 2*M/T. -/
def matchScore (s t : String) : Nat × Nat :=
  let a := s.data
  let b := t.data
  let total := a.length + b.length
  (matchesTotal a b (total + 1) 0 a.length 0 b.length, total)

/-- SequenceMatcher(None, s, t).ratio(): 2*M/T as an exact rational, 1 when
both strings are empty (Python uses floats; every score this development
evaluates is exact in both representations). -/
def similarity (s t : String) : ℚ :=
  if (matchScore s t).2 = 0 then 1
  else 2 * ((matchScore s t).1 : ℚ) / ((matchScore s t).2 : ℚ)

/-- Decision ratio() > 0.8 in exact integer arithmetic: 2*M/T > 4/5 iff
10*M > 4*T (and 1 > 0.8 when T = 0).  similarityExceeds_iff below proves this
equal to the rational comparison of the source. -/
def similarityExceeds (s t : String) : Bool :=
  if (matchScore s t).2 = 0 then true
  else decide (10 * (matchScore s t).1 > 4 * (matchScore s t).2)

/-! ### check_duplicate_questions

The source iterates over the live question list while popping from it:

  for i, q1 in enumerate(questions):
      for j, q2 in enumerate(questions[i+1:], start=i+1):
          similarity = SequenceMatcher(None, q1[.question.], q2[.question.]).ratio()
          if similarity > 0.8:
              questions.pop(j)
  return questions

The inner iterator runs over a snapshot (the slice questions[i+1:]) while
pop(j) mutates the live list, and enumerate over the live list drives the
outer loop.  popPass/outerPass model exactly that; pop with an index at or
past the end of the live list is Python's IndexError, modelled as
Except.error.  Questions are represented by their text. -/

/-- One inner pass: q1 fixed, snapshot the slice taken at the start of the
pass, j the running pop index, live the mutating list. -/
def popPass (hit : String → String → Bool) (q1 : String) :
    List String → Nat → List String → Except Unit (List String)
  | [], _, live => Except.ok live
  | q2 :: snap, j, live =>
    if hit q1 q2 then
      if j < live.length then popPass hit q1 snap (j + 1) (live.eraseIdx j)
      else Except.error ()
    else popPass hit q1 snap (j + 1) live

/-- Outer enumerate over the live list: index i advances by one per pass and
the loop ends once i reaches the current length.  Fuel equal to the initial
length bounds the iteration count (the list never grows). -/
def outerPass (hit : String → String → Bool) : Nat → Nat → List String → Except Unit (List String)
  | 0, _, live => Except.ok live
  | fuel + 1, i, live =>
    if i < live.length then
      match popPass hit (live.getD i "") (live.drop (i + 1)) (i + 1) live with
      | Except.error e => Except.error e
      | Except.ok live2 => outerPass hit fuel (i + 1) live2
    else Except.ok live

/-- check_duplicate_questions from the source, with the SequenceMatcher
similarity threshold 0.8 (similarityExceeds is exactly ratio() > 0.8). -/
def check_duplicate_questions (questions : List String) : Except Unit (List String) :=
  outerPass similarityExceeds questions.length 0 questions

/-! ### validate_quiz_json and the generate_quiz retry loop

validate_quiz_json checks, per question and in this order: presence of the
five fields, exactly 4 options, answer letter in A-D, difficulty in
easy/medium/hard; it raises ValueError (modelled as Except.error) at the
first violation and performs no repair.  The LLM response is modelled as
Option (List RawQuestion): none is a response without the quiz field, and a
missing per-question field is a none field. -/

/-- One question object of the parsed LLM response; every field may be
absent. -/
structure RawQuestion where
  question : Option String
  options : Option (List String)
  answer : Option String
  difficulty : Option String
  explanation : Option String
deriving DecidableEq

/-- First missing field in the order quiz_fields = [question, options,
answer, difficulty, explanation] of the source. -/
def missingField (q : RawQuestion) : Option String :=
  if q.question.isNone then some "question"
  else if q.options.isNone then some "options"
  else if q.answer.isNone then some "answer"
  else if q.difficulty.isNone then some "difficulty"
  else if q.explanation.isNone then some "explanation"
  else none

/-- Allowed answer letters of the source. -/
def answerLetters : List String := ["A", "B", "C", "D"]

/-- Allowed difficulty values of the source. -/
def difficultyLevels : List String := ["easy", "medium", "hard"]

/-- Per-question body of validate_quiz_json (index i only feeds the error
message). -/
def validateQuestion (i : Nat) (q : RawQuestion) : Except String Unit :=
  match missingField q with
  | some f => Except.error ("Question " ++ toString i ++ " missing " ++ f)
  | none =>
    if (q.options.getD []).length ≠ 4 then
      Except.error ("Question " ++ toString i ++ " must have exactly 4 options")
    else if (q.answer.getD "") ∉ answerLetters then
      Except.error ("Question " ++ toString i ++ " has invalid answer: " ++ q.answer.getD "")
    else if (q.difficulty.getD "") ∉ difficultyLevels then
      Except.error ("Question " ++ toString i ++ " has invalid difficulty")
    else Except.ok ()

/-- The enumerate loop of validate_quiz_json. -/
def validateQuiz : Nat → List RawQuestion → Except String Unit
  | _, [] => Except.ok ()
  | i, q :: rest =>
    match validateQuestion i q with
    | Except.error e => Except.error e
    | Except.ok _ => validateQuiz (i + 1) rest

/-- validate_quiz_json from the source: missing quiz field, then the
per-question loop; returns True when every question passes. -/
def validate_quiz_json (response : Option (List RawQuestion)) : Except String Bool :=
  match response with
  | none => Except.error "Missing quiz field"
  | some qs => (validateQuiz 0 qs).map (fun _ => true)

/-- A question passes every check of validate_quiz_json. -/
def questionValid (q : RawQuestion) : Bool :=
  (missingField q).isNone &&
    ((q.options.getD []).length == 4) &&
    decide ((q.answer.getD "") ∈ answerLetters) &&
    decide ((q.difficulty.getD "") ∈ difficultyLevels)

/-- Index a letter answer resolves to (spec wording: the answer letter
references one of the 4 options). -/
def answerIndex (s : String) : Option Nat :=
  if s = "A" then some 0
  else if s = "B" then some 1
  else if s = "C" then some 2
  else if s = "D" then some 3
  else none

/-- One attempt of the generate_quiz retry loop: chain.invoke may itself
fail (parse error), otherwise the parsed response is validated; a passing
response is returned as the question list. -/
def attemptResult (r : Except String (Option (List RawQuestion))) :
    Except String (List RawQuestion) :=
  match r with
  | Except.error e => Except.error e
  | Except.ok resp =>
    match validate_quiz_json resp with
    | Except.error e => Except.error e
    | Except.ok _ => Except.ok (resp.getD [])

/-- The for attempt in range(3) loop of generate_quiz: return on the first
passing attempt, re-raise the error of the last attempt. -/
def run_attempts : List (Except String (Option (List RawQuestion))) →
    Except String (List RawQuestion)
  | [] => Except.error "no attempts"
  | [r] => attemptResult r
  | r :: rest =>
    match attemptResult r with
    | Except.ok qs => Except.ok qs
    | Except.error _ => run_attempts rest

/-- generate_quiz from the source, with the three chain.invoke outcomes made
explicit (one per attempt, same inputs each time). -/
def generate_quiz (r0 r1 r2 : Except String (Option (List RawQuestion))) :
    Except String (List RawQuestion) :=
  run_attempts [r0, r1, r2]

/-! ### validate_question_grounding

The source extracts key terms from the question text, counts how many occur
(lowercased, substring) in the article text, logs a warning when the
grounded fraction is below 0.5, and returns True unconditionally.
extract_key_terms is not part of the repository, so it is a parameter.  The
result pairs the logged-warning flag with the returned value; none models
the ZeroDivisionError raised when no key terms are extracted. -/

/-- Lowercase a string (Python str.lower on the ASCII content involved
here). -/
def lowerStr (s : String) : String := String.mk (s.data.map Char.toLower)

/-- sub is an initial segment of big. -/
def startsWithChars : List Char → List Char → Bool
  | _, [] => true
  | [], _ :: _ => false
  | a :: as, b :: bs => a == b && startsWithChars as bs

/-- Python substring containment sub in big over characters. -/
def containsChars : List Char → List Char → Bool
  | [], sub => sub.isEmpty
  | c :: rest, sub => startsWithChars (c :: rest) sub || containsChars rest sub

/-- Python substring containment on strings. -/
def strContains (big sub : String) : Bool := containsChars big.data sub.data

/-- Fraction of key terms whose lowercase form occurs in the lowercased
article text. -/
def groundingFraction (terms : List String) (article_text : String) : ℚ :=
  ((terms.filter (fun t => strContains (lowerStr article_text) (lowerStr t))).length : ℚ) /
    (terms.length : ℚ)

/-- validate_question_grounding from the source: (warning logged, returned
value); none is the ZeroDivisionError on an empty term list. -/
def validate_question_grounding (extract_key_terms : String → List String)
    (question article_text : String) : Option (Bool × Bool) :=
  let terms := extract_key_terms question
  if terms.length = 0 then none
  else
    let grounded := terms.filter (fun t => strContains (lowerStr article_text) (lowerStr t))
    some (decide ((grounded.length : ℚ) / (terms.length : ℚ) < (0.5 : ℚ)), true)

/-! ### Duplicate-URL lookup and the generate endpoint

check_duplicate_url checks whether the submitted URL already exists among
the stored quizzes (plain equality on the stored url column; the Redis
variant get_cached_quiz keys on md5 of the raw url string).  The endpoint
short-circuits on a hit and otherwise persists a new quiz row for the
url. -/

/-- check_duplicate_url from the source: exact-string lookup of the raw url,
returning the existing quiz id or none.  The database is the list of
(quiz id, stored url) rows. -/
def check_duplicate_url (db : List (Nat × String)) (url : String) : Option Nat :=
  (db.find? (fun e => e.2 == url)).map (fun e => e.1)

/-- Steps 2 and 8 of the POST /api/quiz/generate flow restricted to the url
column: on a duplicate hit return the cached quiz id, otherwise persist a
new row for the submitted url. -/
def process_generate (db : List (Nat × String)) (url : String) :
    List (Nat × String) × Nat :=
  match check_duplicate_url db url with
  | some qid => (db, qid)
  | none => (db ++ [(db.length + 1, url)], db.length + 1)

/-- Modelled from the spec: normalization of a URL to scheme+host+path with
the trailing slash normalized (the spec claims the duplicate lookup matches
on this form; no such normalization exists in the source, which is what the
C5 counterexample exhibits). -/
def normalizeUrl (url : String) : String :=
  let noFragment := String.mk (url.data.takeWhile (fun c => c ≠ '#'))
  let noQuery := String.mk (noFragment.data.takeWhile (fun c => c ≠ '?'))
  if noQuery.data.getLast? = some '/' then String.mk noQuery.data.dropLast else noQuery

/-! ### save_quiz_to_db

The source describes a single transaction: insert the quizzes row, obtain
quiz_id, batch-insert key_entities, questions and related_topics, commit or
roll back on error, and return the saved quiz.  Failure of each insert is
abstracted as a per-row oracle; a failed insert rolls the whole transaction
back. -/

/-- Input bundle for persistence (rows restricted to the columns relevant to
atomicity). -/
structure QuizBundleInput where
  url : String
  title : String
  summary : String
  entities : List (String × String)
  questions : List String
  related_topics : List String

/-- Database state: the four tables written by save_quiz_to_db. -/
structure QuizDb where
  quizzes : List (Nat × String × String × String)
  key_entities : List (Nat × String × String)
  questions : List (Nat × String)
  related_topics : List (Nat × String)

/-- Stage a batch insert: all rows staged, or none on the first failing
row. -/
def stageRows {β γ : Type} (okRow : β → Bool) (mk : β → γ) : List β → Option (List γ)
  | [] => some []
  | r :: rest =>
    if okRow r then (stageRows okRow mk rest).map (fun l => mk r :: l)
    else none

/-- save_quiz_to_db from the source: one transaction inserting the parent
quizzes row and the three child batches; commit only when every insert
succeeded, otherwise roll back to the incoming state and return no id. -/
def save_quiz_to_db (parentOk : Bool) (entOk : String × String → Bool)
    (qOk tOk : String → Bool) (db : QuizDb) (qd : QuizBundleInput) :
    QuizDb × Option Nat :=
  if parentOk then
    let qid := db.quizzes.length + 1
    match stageRows entOk (fun e => (qid, e.1, e.2)) qd.entities,
        stageRows qOk (fun s => (qid, s)) qd.questions,
        stageRows tOk (fun s => (qid, s)) qd.related_topics with
    | some es, some qs, some ts =>
      ({ quizzes := db.quizzes ++ [(qid, qd.url, qd.title, qd.summary)],
         key_entities := db.key_entities ++ es,
         questions := db.questions ++ qs,
         related_topics := db.related_topics ++ ts }, some qid)
    | _, _, _ => (db, none)
  else (db, none)

/-! ### Word-count gate of the generate endpoint

Step 4 of the POST /api/quiz/generate flow checks that the scraped content
meets the minimum requirements, written as more than 500 words, while the
error catalogue (CONTENT_TOO_SHORT: minimum 300 words), the frontend tip
and the test plan all state the minimum is 300 words. -/

/-- Step 4 of the process flow: content meets minimum requirements
(>500 words). -/
def content_meets_minimum (word_count : Nat) : Bool := 500 < word_count

/-- Minimum word count according to the CONTENT_TOO_SHORT error message and
the frontend tip (at least 300 words). -/
def MIN_WORD_COUNT : Nat := 300

/-- The gate of the endpoint: reject with CONTENT_TOO_SHORT when the check
fails. -/
def content_check (word_count : Nat) : Except String Unit :=
  if content_meets_minimum word_count then Except.ok ()
  else Except.error "CONTENT_TOO_SHORT"

/-! ### QuizDisplay option highlighting (frontend)

For each option the component renders the letter String.fromCharCode(65+idx)
and highlights the option iff option === question.answer (strict string
equality with the full option text). -/

/-- Rendered options of one question: (displayed letter, option text,
highlighted as correct). -/
def renderOptions (options : List String) (answer : String) :
    List (String × String × Bool) :=
  options.enum.map (fun p => (String.singleton (Char.ofNat (65 + p.1)), p.2, p.2 == answer))

/-! ### QuizHistory pagination (frontend)

page starts at 1; Previous sets Math.max(1, p-1), Next sets
Math.min(totalPages, p+1) with totalPages = Math.ceil(total/20), and any
search-input change resets the page to 1. -/

/-- Page-size constant of QuizHistory. -/
def pageLimit : Nat := 20

/-- totalPages = Math.ceil(total / limit). -/
def totalPages (total : Nat) : Nat := (total + pageLimit - 1) / pageLimit

/-- User events that change the page state. -/
inductive HistoryEvent
  | prevClick
  | nextClick
  | searchChange
deriving DecidableEq

/-- State update of QuizHistory for one event. -/
def historyStep (tp : Nat) (page : Nat) : HistoryEvent → Nat
  | HistoryEvent.prevClick => max 1 (page - 1)
  | HistoryEvent.nextClick => min tp (page + 1)
  | HistoryEvent.searchChange => 1

/-- Page reached after a sequence of events, starting from the initial
useState(1). -/
def runHistory (tp : Nat) (events : List HistoryEvent) : Nat :=
  events.foldl (historyStep tp) 1

/-! ### Concrete inputs used by counterexamples and witnesses -/

/-- Question text A: twelve letters a.  SequenceMatcher gives
ratio(qA,qB) = 11/12, ratio(qA,qC) = 5/6 (both above 0.8) and
ratio 0 against qD. -/
def qA : String := "aaaaaaaaaaaa"

/-- Question text B: near-duplicate of qA (one letter changed). -/
def qB : String := "aaaaaaaaaaab"

/-- Question text C: near-duplicate of qA (two letters changed). -/
def qC : String := "aaaaaaaaaabb"

/-- Question text D: unrelated to qA, qB, qC. -/
def qD : String := "zzzzzzzzzzzz"

/-- A question passing every check of validate_quiz_json. -/
def validQ : RawQuestion :=
  { question := some "What is the topic",
    options := some ["one", "two", "three", "four"],
    answer := some "A",
    difficulty := some "easy",
    explanation := some "stated in the article" }

/-- A question failing validation: answer letter E. -/
def invalidAnswerQ : RawQuestion :=
  { question := some "Second question",
    options := some ["one", "two", "three", "four"],
    answer := some "E",
    difficulty := some "easy",
    explanation := some "stated in the article" }

/-- A question that passes validate_quiz_json although two options are
identical and the answer letter resolves to an empty option. -/
def dupOptionsQ : RawQuestion :=
  { question := some "Which value",
    options := some ["x", "x", "", ""],
    answer := some "C",
    difficulty := some "hard",
    explanation := some "none" }

/-- Stored URL without trailing slash. -/
def urlNoSlash : String := "https://example.com/article"

/-- Same URL with a trailing slash: identical after normalization. -/
def urlWithSlash : String := "https://example.com/article/"

/-! ## Theorems -/

/-- similarityExceeds is exactly the comparison ratio() > 0.8 of the
source. -/
theorem similarityExceeds_iff (s t : String) :
    similarityExceeds s t = true ↔ similarity s t > (0.8 : ℚ) := by
  unfold similarityExceeds similarity
  by_cases h : (matchScore s t).2 = 0
  · simp only [if_pos h]
    norm_num
  · simp only [if_neg h, decide_eq_true_eq]
    have hT : (0 : ℚ) < ((matchScore s t).2 : ℚ) := by
      exact_mod_cast Nat.pos_of_ne_zero h
    rw [gt_iff_lt, gt_iff_lt, lt_div_iff₀ hT]
    constructor
    · intro hh
      have hc : (4 * (matchScore s t).2 : ℚ) < (10 * (matchScore s t).1 : ℚ) := by
        exact_mod_cast hh
      push_cast at hc ⊢
      linarith
    · intro hh
      have hc : (4 * (matchScore s t).2 : ℚ) < (10 * (matchScore s t).1 : ℚ) := by
        push_cast at hh ⊢
        linarith
      exact_mod_cast hc

/-- validateQuestion succeeds exactly when the question passes every check;
the index only feeds the error message. -/
theorem validateQuestion_ok_iff (i : Nat) (q : RawQuestion) :
    validateQuestion i q = Except.ok () ↔ questionValid q = true := by
  unfold validateQuestion questionValid
  cases h : missingField q with
  | some f => simp [h]
  | none => simp only [h, Option.isNone_none, Bool.true_and]; split_ifs <;> simp_all

/-- The enumerate loop of validate_quiz_json succeeds exactly when every
question passes. -/
theorem validateQuiz_ok_iff : ∀ (i : Nat) (qs : List RawQuestion),
    validateQuiz i qs = Except.ok () ↔ ∀ q ∈ qs, questionValid q = true := by
  intro i qs
  induction qs generalizing i with
  | nil => simp [validateQuiz]
  | cons q rest ih =>
    cases hv : validateQuestion i q with
    | error e =>
      simp only [validateQuiz, hv]
      constructor
      · intro h; exact absurd h (by simp)
      · intro h
        exact absurd ((validateQuestion_ok_iff i q).mpr (h q (by simp))) (by simp [hv])
    | ok u =>
      cases u
      have hq := (validateQuestion_ok_iff i q).mp hv
      simp [validateQuiz, hv, ih (i + 1), hq]

/-- A passing attempt of generate_quiz returns the parsed question list
verbatim, all of whose questions pass validation. -/
theorem attemptResult_ok {r : Except String (Option (List RawQuestion))}
    {qs : List RawQuestion} (h : attemptResult r = Except.ok qs) :
    r = Except.ok (some qs) ∧ ∀ q ∈ qs, questionValid q = true := by
  cases r with
  | error e => simp [attemptResult] at h
  | ok resp =>
    cases resp with
    | none => simp [attemptResult, validate_quiz_json] at h
    | some l =>
      cases hv : validateQuiz 0 l with
      | error e => simp [attemptResult, validate_quiz_json, hv, Except.map] at h
      | ok u =>
        cases u
        have hl : l = qs := by
          simpa [attemptResult, validate_quiz_json, hv, Except.map] using h
        subst hl
        exact ⟨rfl, (validateQuiz_ok_iff 0 l).mp hv⟩

/-- Success of generate_quiz comes verbatim from one of the three attempts
and every returned question passes validation: no repair ever happens. -/
theorem generate_quiz_ok {r0 r1 r2 : Except String (Option (List RawQuestion))}
    {qs : List RawQuestion} (h : generate_quiz r0 r1 r2 = Except.ok qs) :
    (∀ q ∈ qs, questionValid q = true) ∧
      (r0 = Except.ok (some qs) ∨ r1 = Except.ok (some qs) ∨ r2 = Except.ok (some qs)) := by
  cases h0 : attemptResult r0 with
  | ok qs0 =>
    have hq : qs0 = qs := by
      have h' := h
      simp only [generate_quiz, run_attempts, h0, Except.ok.injEq] at h'
      exact h'
    subst hq
    obtain ⟨ha, hb⟩ := attemptResult_ok h0
    exact ⟨hb, Or.inl ha⟩
  | error e0 =>
    cases h1 : attemptResult r1 with
    | ok qs1 =>
      have hq : qs1 = qs := by
        have h' := h
        simp only [generate_quiz, run_attempts, h0, h1, Except.ok.injEq] at h'
        exact h'
      subst hq
      obtain ⟨ha, hb⟩ := attemptResult_ok h1
      exact ⟨hb, Or.inr (Or.inl ha)⟩
    | error e1 =>
      have h2 : attemptResult r2 = Except.ok qs := by
        have h' := h
        simp only [generate_quiz, run_attempts, h0, h1] at h'
        exact h'
      obtain ⟨ha, hb⟩ := attemptResult_ok h2
      exact ⟨hb, Or.inr (Or.inr ha)⟩

/-- C1 (corrected): a successful run of generate_quiz returns exactly the
question list of one of the three attempts, every question of which passes
validation; no invalid question is ever dropped, so the returned count is
whatever the accepted attempt contained and is not clamped to the requested
range. -/
theorem c1_generate_no_repair (r0 r1 r2 : Except String (Option (List RawQuestion)))
    (qs : List RawQuestion) (h : generate_quiz r0 r1 r2 = Except.ok qs) :
    (∀ q ∈ qs, questionValid q = true) ∧
      (r0 = Except.ok (some qs) ∨ r1 = Except.ok (some qs) ∨ r2 = Except.ok (some qs)) :=
  generate_quiz_ok h

/-- Witness for c1_generate_no_repair at a concrete passing attempt. -/
theorem c1_generate_no_repair_witness : questionValid validQ = true :=
  (c1_generate_no_repair (Except.ok (some [validQ])) (Except.ok (some [validQ]))
    (Except.ok (some [validQ])) [validQ] rfl).1 validQ (by simp)

/-- C1 counterexample: the final (third) attempt holds one valid and one
invalid question, yet generate_quiz fails with the validation error instead
of repairing to the valid question: best-effort repair does not exist in the
source. -/
theorem c1_no_repair_counterexample :
    questionValid validQ = true ∧
      generate_quiz (Except.ok (some [validQ, invalidAnswerQ]))
          (Except.ok (some [validQ, invalidAnswerQ]))
          (Except.ok (some [validQ, invalidAnswerQ]))
        = Except.error "Question 1 has invalid answer: E" :=
  ⟨rfl, rfl⟩

/-- C2 (corrected): every question of a returned bundle has exactly 4
options, an answer letter among A-D that indexes one of them, and a valid
difficulty; distinctness and non-emptiness of the options are not
checked. -/
theorem c2_returned_question_schema (r0 r1 r2 : Except String (Option (List RawQuestion)))
    (qs : List RawQuestion) (h : generate_quiz r0 r1 r2 = Except.ok qs) :
    ∀ q ∈ qs, (q.options.getD []).length = 4 ∧
      (q.answer.getD "") ∈ answerLetters ∧
      (q.difficulty.getD "") ∈ difficultyLevels ∧
      ∃ j, answerIndex (q.answer.getD "") = some j ∧ j < (q.options.getD []).length := by
  intro q hq
  have hv := (generate_quiz_ok h).1 q hq
  simp only [questionValid, Bool.and_eq_true, beq_iff_eq, decide_eq_true_eq] at hv
  obtain ⟨⟨⟨hmf, hlen⟩, hans⟩, hdiff⟩ := hv
  refine ⟨hlen, hans, hdiff, ?_⟩
  rw [hlen]
  have hmem := hans
  simp only [answerLetters, List.mem_cons, List.not_mem_nil, or_false] at hmem
  rcases hmem with h1 | h1 | h1 | h1
  · rw [h1]; exact ⟨0, rfl, by omega⟩
  · rw [h1]; exact ⟨1, rfl, by omega⟩
  · rw [h1]; exact ⟨2, rfl, by omega⟩
  · rw [h1]; exact ⟨3, rfl, by omega⟩

/-- Witness for c2_returned_question_schema at a concrete passing attempt. -/
theorem c2_returned_question_schema_witness :
    (validQ.options.getD []).length = 4 ∧
      (validQ.answer.getD "") ∈ answerLetters ∧
      (validQ.difficulty.getD "") ∈ difficultyLevels ∧
      ∃ j, answerIndex (validQ.answer.getD "") = some j ∧
        j < (validQ.options.getD []).length :=
  c2_returned_question_schema (Except.ok (some [validQ])) (Except.ok (some [validQ]))
    (Except.ok (some [validQ])) [validQ] rfl validQ (by simp)

/-- C2 counterexample: a question with two identical options and an answer
letter resolving to an empty option passes validate_quiz_json and is
returned in the bundle. -/
theorem c2_duplicate_options_counterexample :
    generate_quiz (Except.ok (some [dupOptionsQ])) (Except.ok (some [dupOptionsQ]))
        (Except.ok (some [dupOptionsQ])) = Except.ok [dupOptionsQ] ∧
      answerIndex (dupOptionsQ.answer.getD "") = some 2 ∧
      (dupOptionsQ.options.getD []).getD 2 "missing" = "" ∧
      (dupOptionsQ.options.getD []).getD 0 "left" = (dupOptionsQ.options.getD []).getD 1 "right" :=
  ⟨rfl, rfl, rfl, rfl⟩

/-- All rows of a batch staged successfully are exactly the mapped input
rows. -/
theorem stageRows_some {β γ : Type} (okRow : β → Bool) (mk : β → γ) :
    ∀ (l : List β) (out : List γ), stageRows okRow mk l = some out → out = l.map mk := by
  intro l
  induction l with
  | nil =>
    intro out h
    simp [stageRows] at h
    simp [h.symm]
  | cons r rest ih =>
    intro out h
    by_cases hr : okRow r = true
    · simp only [stageRows, hr, if_true, Option.map_eq_some'] at h
      obtain ⟨out', ho, rfl⟩ := h
      simp [ih out' ho]
    · simp [stageRows, hr] at h

/-- C6 (confirmed): save_quiz_to_db is all-or-nothing — either it fails and
the database is returned unchanged (rollback: no partial rows), or it
succeeds and the parent row plus every entity, question and related-topic
row are appended in one step. -/
theorem c6_save_quiz_atomic (parentOk : Bool) (entOk : String × String → Bool)
    (qOk tOk : String → Bool) (db : QuizDb) (qd : QuizBundleInput) :
    ((save_quiz_to_db parentOk entOk qOk tOk db qd).2 = none ∧
      (save_quiz_to_db parentOk entOk qOk tOk db qd).1 = db) ∨
    (∃ qid, (save_quiz_to_db parentOk entOk qOk tOk db qd).2 = some qid ∧
      (save_quiz_to_db parentOk entOk qOk tOk db qd).1.quizzes
        = db.quizzes ++ [(qid, qd.url, qd.title, qd.summary)] ∧
      (save_quiz_to_db parentOk entOk qOk tOk db qd).1.key_entities
        = db.key_entities ++ qd.entities.map (fun e => (db.quizzes.length + 1, e.1, e.2)) ∧
      (save_quiz_to_db parentOk entOk qOk tOk db qd).1.questions
        = db.questions ++ qd.questions.map (fun s => (db.quizzes.length + 1, s)) ∧
      (save_quiz_to_db parentOk entOk qOk tOk db qd).1.related_topics
        = db.related_topics ++ qd.related_topics.map (fun s => (db.quizzes.length + 1, s))) := by
  cases hp : parentOk with
  | false => left; simp [save_quiz_to_db]
  | true =>
    cases he : stageRows entOk (fun e => (db.quizzes.length + 1, e.1, e.2)) qd.entities with
    | none => left; simp [save_quiz_to_db, he]
    | some es =>
      cases hq : stageRows qOk (fun s => (db.quizzes.length + 1, s)) qd.questions with
      | none => left; simp [save_quiz_to_db, he, hq]
      | some qrows =>
        cases ht : stageRows tOk (fun s => (db.quizzes.length + 1, s)) qd.related_topics with
        | none => left; simp [save_quiz_to_db, he, hq, ht]
        | some trows =>
          right
          refine ⟨db.quizzes.length + 1, ?_⟩
          have hes := stageRows_some _ _ _ _ he
          have hqs := stageRows_some _ _ _ _ hq
          have hts := stageRows_some _ _ _ _ ht
          subst hes hqs hts
          simp [save_quiz_to_db, he, hq, ht]

/-- C7 (code_bug): the endpoint gate rejects a 400-word article with
CONTENT_TOO_SHORT although 400 is at or above the documented 300-word
minimum, and it does reject genuinely short content such as 250 words. -/
theorem c7_word_count_gate_contradiction :
    content_check 400 = Except.error "CONTENT_TOO_SHORT" ∧
      MIN_WORD_COUNT ≤ 400 ∧
      content_check 250 = Except.error "CONTENT_TOO_SHORT" :=
  ⟨rfl, by decide, rfl⟩

/-- C8 (confirmed): grounding validation never fails and never rejects a
question — the returned value is True regardless of the score — and the
warning is flagged exactly when the grounded fraction is below 0.5. -/
theorem c8_grounding_flag_never_fails (extract_key_terms : String → List String)
    (question article_text : String) (h : extract_key_terms question ≠ []) :
    ∃ warned, validate_question_grounding extract_key_terms question article_text
        = some (warned, true) ∧
      (warned = true ↔ groundingFraction (extract_key_terms question) article_text < (0.5 : ℚ)) := by
  have hlen : ¬ (extract_key_terms question).length = 0 :=
    fun hh => h (List.length_eq_zero.mp hh)
  refine ⟨decide (groundingFraction (extract_key_terms question) article_text < (0.5 : ℚ)),
    ?_, by simp⟩
  simp [validate_question_grounding, hlen, groundingFraction]

/-- Witness for c8_grounding_flag_never_fails: a question with one ungrounded
key term is warned about but still accepted. -/
theorem c8_grounding_flag_never_fails_witness :
    ∃ warned, validate_question_grounding (fun _ => ["alpha"]) "some question" "zzz"
        = some (warned, true) ∧
      (warned = true ↔ groundingFraction ((fun _ => ["alpha"]) "some question") "zzz" < (0.5 : ℚ)) :=
  c8_grounding_flag_never_fails (fun _ => ["alpha"]) "some question" "zzz" (by simp)

/-- C9 (confirmed): QuizDisplay highlights an option as correct exactly when
the full option text is string-equal to the answer field; an answer letter
therefore highlights nothing unless an option is literally that letter. -/
theorem c9_option_marked_iff_text_equal (options : List String) (answer letter opt : String)
    (marked : Bool) (h : (letter, opt, marked) ∈ renderOptions options answer) :
    marked = true ↔ opt = answer := by
  unfold renderOptions at h
  simp only [List.mem_map] at h
  obtain ⟨p, hp, heq⟩ := h
  have h2 : p.2 = opt := congrArg (fun x => x.2.1) heq
  have h3 : (p.2 == answer) = marked := congrArg (fun x => x.2.2) heq
  rw [← h3, h2]
  exact beq_iff_eq

/-- Witness for c9_option_marked_iff_text_equal: with answer letter B, the
option text Paris is not highlighted. -/
theorem c9_option_marked_iff_text_equal_witness :
    (("Paris" == "B") = true ↔ ("Paris" : String) = "B") :=
  c9_option_marked_iff_text_equal ["Paris", "Berlin", "Rome", "Madrid"] "B" "A" "Paris"
    ("Paris" == "B") (by decide)

/-- C10 bound helper: totalPages is at least 1 for a nonempty history. -/
theorem one_le_totalPages {total : Nat} (h : 0 < total) : 1 ≤ totalPages total := by
  rw [totalPages, Nat.le_div_iff_mul_le (by decide : 0 < pageLimit)]
  simp only [pageLimit]
  omega

/-- C10 fold helper: one event keeps the page within bounds. -/
theorem historyStep_bounds {tp p : Nat} (h1 : 1 ≤ tp) (hp1 : 1 ≤ p) (hp2 : p ≤ tp)
    (e : HistoryEvent) : 1 ≤ historyStep tp p e ∧ historyStep tp p e ≤ tp := by
  cases e with
  | prevClick => exact ⟨le_max_left _ _, max_le h1 (by omega)⟩
  | nextClick => exact ⟨le_min h1 (by omega), min_le_left _ _⟩
  | searchChange => exact ⟨le_refl 1, h1⟩

/-- C10 fold helper: the invariant is preserved along any event sequence. -/
theorem historyFold_bounds {tp : Nat} (h1 : 1 ≤ tp) :
    ∀ (events : List HistoryEvent) (p : Nat), 1 ≤ p → p ≤ tp →
      1 ≤ events.foldl (historyStep tp) p ∧ events.foldl (historyStep tp) p ≤ tp := by
  intro events
  induction events with
  | nil => intro p hp1 hp2; exact ⟨hp1, hp2⟩
  | cons e rest ih =>
    intro p hp1 hp2
    have hs := historyStep_bounds h1 hp1 hp2 e
    exact ih _ hs.1 hs.2

/-- C10 (confirmed): starting from page 1, any sequence of Previous / Next
clicks and search changes keeps the page within [1, ceil(total/20)], and a
search change always resets the page to 1. -/
theorem c10_pagination_bounds (total : Nat) (h : 0 < total) (events : List HistoryEvent) :
    1 ≤ runHistory (totalPages total) events ∧
      runHistory (totalPages total) events ≤ totalPages total ∧
      runHistory (totalPages total) (events ++ [HistoryEvent.searchChange]) = 1 := by
  have h1 := one_le_totalPages h
  have hb := historyFold_bounds h1 events 1 (le_refl 1) h1
  refine ⟨hb.1, hb.2, ?_⟩
  simp [runHistory, List.foldl_append, historyStep]

/-- Witness for c10_pagination_bounds with 45 stored quizzes and three
clicks. -/
theorem c10_pagination_bounds_witness :
    1 ≤ runHistory (totalPages 45)
        [HistoryEvent.nextClick, HistoryEvent.nextClick, HistoryEvent.prevClick] ∧
      runHistory (totalPages 45)
        [HistoryEvent.nextClick, HistoryEvent.nextClick, HistoryEvent.prevClick] ≤ totalPages 45 ∧
      runHistory (totalPages 45)
        ([HistoryEvent.nextClick, HistoryEvent.nextClick, HistoryEvent.prevClick]
          ++ [HistoryEvent.searchChange]) = 1 :=
  c10_pagination_bounds 45 (by decide)
    [HistoryEvent.nextClick, HistoryEvent.nextClick, HistoryEvent.prevClick]

/-- C5 (corrected): the duplicate lookup is an exact match on the raw url
string — it preserves at-most-one-row-per-exact-url, and a hit
short-circuits, leaving the database unchanged. -/
theorem c5_exact_url_dedup (db : List (Nat × String)) (url : String)
    (h : (db.map Prod.snd).Nodup) :
    ((process_generate db url).1.map Prod.snd).Nodup ∧
      (url ∈ db.map Prod.snd → (process_generate db url).1 = db) := by
  cases hf : db.find? (fun e => e.2 == url) with
  | some e =>
    constructor
    · simp [process_generate, check_duplicate_url, hf, h]
    · intro _; simp [process_generate, check_duplicate_url, hf]
  | none =>
    have hnot : url ∉ db.map Prod.snd := by
      intro hmem
      obtain ⟨e, he, he2⟩ := List.mem_map.mp hmem
      have := List.find?_eq_none.mp hf e he
      simp [he2] at this
    constructor
    · simp [process_generate, check_duplicate_url, hf, List.nodup_middle, h, hnot]
    · intro hmem; exact absurd hmem hnot

/-- Witness for c5_exact_url_dedup on a one-row database queried with the
stored url. -/
theorem c5_exact_url_dedup_witness :
    (process_generate [(1, urlNoSlash)] urlNoSlash).1 = [(1, urlNoSlash)] :=
  (c5_exact_url_dedup [(1, urlNoSlash)] urlNoSlash (by simp)).2 (by simp)

/-- popPass with no matching snapshot element leaves the live list
unchanged. -/
theorem popPass_all_low (hit : String → String → Bool) (q1 : String) :
    ∀ (snap : List String), (∀ x ∈ snap, hit q1 x = false) →
      ∀ (j : Nat) (live : List String), popPass hit q1 snap j live = Except.ok live := by
  intro snap
  induction snap with
  | nil => intro _ j live; rfl
  | cons y t ih =>
    intro hlow j live
    have hy : hit q1 y = false := hlow y (by simp)
    simp only [popPass, hy, Bool.false_eq_true, if_false]
    exact ih (fun x hx => hlow x (by simp [hx])) (j + 1) live

/-- popPass with exactly one matching snapshot element pops exactly the
index of that element when it lies within the live list. -/
theorem popPass_single_hit (hit : String → String → Bool) (q1 b : String)
    (s2 : List String) (hb : hit q1 b = true) (h2 : ∀ x ∈ s2, hit q1 x = false) :
    ∀ (s1 : List String), (∀ x ∈ s1, hit q1 x = false) →
      ∀ (j : Nat) (live : List String), j + s1.length < live.length →
        popPass hit q1 (s1 ++ b :: s2) j live
          = Except.ok (live.eraseIdx (j + s1.length)) := by
  intro s1
  induction s1 with
  | nil =>
    intro _ j live hlt
    simp only [List.length_nil, Nat.add_zero] at hlt ⊢
    simp only [List.nil_append, popPass, hb, if_true, if_pos hlt]
    exact popPass_all_low hit q1 s2 h2 (j + 1) (live.eraseIdx j)
  | cons y t ih =>
    intro h1 j live hlt
    have hy : hit q1 y = false := h1 y (by simp)
    simp only [List.cons_append, popPass, hy, Bool.false_eq_true, if_false]
    have hlt2 : (j + 1) + t.length < live.length := by
      simp only [List.length_cons] at hlt
      omega
    have heq : j + (y :: t).length = j + 1 + t.length := by
      simp only [List.length_cons]
      omega
    rw [heq]
    exact ih (fun x hx => h1 x (by simp [hx])) (j + 1) live hlt2

/-- The head of a Pairwise list relates to everything after it. -/
theorem pairwise_getD_drop {R : String → String → Prop} :
    ∀ (l : List String), l.Pairwise R → ∀ (i : Nat), i < l.length →
      ∀ x ∈ l.drop (i + 1), R (l.getD i "") x := by
  intro l
  induction l with
  | nil => intro _ i hi; simp at hi
  | cons a t ih =>
    intro hpw i hi
    cases i with
    | zero =>
      intro x hx
      simp only [List.drop_succ_cons, List.drop_zero] at hx
      simpa using (List.pairwise_cons.mp hpw).1 x hx
    | succ n =>
      intro x hx
      simp only [List.drop_succ_cons] at hx
      simpa using ih (List.pairwise_cons.mp hpw).2 n (by simpa using hi) x hx

/-- When no ordered pair of the live list matches, every pass leaves the
list unchanged: a pairwise-low list is a fixed point of the whole loop. -/
theorem outerPass_pairwise_low (hit : String → String → Bool) :
    ∀ (fuel i : Nat) (live : List String),
      live.Pairwise (fun u v => hit u v = false) →
      outerPass hit fuel i live = Except.ok live := by
  intro fuel
  induction fuel with
  | zero => intro i live _; rfl
  | succ f ih =>
    intro i live hpw
    by_cases hi : i < live.length
    · have hlow := pairwise_getD_drop live hpw i hi
      simp only [outerPass, if_pos hi]
      rw [popPass_all_low hit (live.getD i "") (live.drop (i + 1)) hlow (i + 1) live]
      exact ih (i + 1) live hpw
    · simp [outerPass, hi]

/-- Erasing past a prefix erases within the suffix. -/
theorem eraseIdx_append_shift (c : List String) :
    ∀ (d : List String) (k : Nat), (c ++ d).eraseIdx (c.length + k) = c ++ d.eraseIdx k := by
  induction c with
  | nil => intro d k; simp
  | cons a t ih =>
    intro d k
    simp only [List.cons_append, List.length_cons]
    have heq : t.length + 1 + k = (t.length + k) + 1 := by omega
    rw [heq]
    simp only [List.eraseIdx_cons_succ]
    rw [ih d k]

/-- Reading past a prefix reads within the suffix. -/
theorem getD_append_shift (c : List String) :
    ∀ (d : List String) (m : Nat) (x : String), (c ++ d).getD (c.length + m) x = d.getD m x := by
  induction c with
  | nil => intro d m x; simp
  | cons a t ih =>
    intro d m x
    simp only [List.cons_append, List.length_cons]
    have heq : t.length + 1 + m = (t.length + m) + 1 := by omega
    rw [heq]
    simp only [List.getD_cons_succ]
    exact ih d m x

/-- Dropping past a prefix drops within the suffix. -/
theorem drop_append_shift (c : List String) :
    ∀ (d : List String) (k : Nat), (c ++ d).drop (c.length + k) = d.drop k := by
  induction c with
  | nil => intro d k; simp
  | cons a t ih =>
    intro d k
    simp only [List.cons_append, List.length_cons]
    have heq : t.length + 1 + k = (t.length + k) + 1 := by omega
    rw [heq]
    simp only [List.drop_succ_cons]
    exact ih d k

/-- An inner pass whose pop indices all lie past a fixed prefix acts on the
suffix only. -/
theorem popPass_shift (hit : String → String → Bool) (q1 : String) :
    ∀ (snap : List String) (k : Nat) (c d : List String),
      popPass hit q1 snap (c.length + k) (c ++ d)
        = Except.map (fun l => c ++ l) (popPass hit q1 snap k d) := by
  intro snap
  induction snap with
  | nil => intro k c d; rfl
  | cons y t ih =>
    intro k c d
    by_cases hy : hit q1 y = true
    · by_cases hk : k < d.length
      · have hck : c.length + k < (c ++ d).length := by
          simp only [List.length_append]
          omega
        simp only [popPass, hy, if_true, if_pos hck, if_pos hk]
        rw [eraseIdx_append_shift c d k]
        rw [show c.length + k + 1 = c.length + (k + 1) from by omega]
        exact ih (k + 1) c (d.eraseIdx k)
      · have hck : ¬ (c.length + k < (c ++ d).length) := by
          simp only [List.length_append]
          omega
        simp only [popPass, hy, if_true, if_neg hck, if_neg hk]
        rfl
    · have hy2 : hit q1 y = false := by simpa using hy
      simp only [popPass, hy2, Bool.false_eq_true, if_false]
      rw [show c.length + k + 1 = c.length + (k + 1) from by omega]
      exact ih (k + 1) c d

/-- The outer loop started past a fixed prefix acts on the suffix only. -/
theorem outerPass_shift (hit : String → String → Bool) :
    ∀ (fuel m : Nat) (c d : List String),
      outerPass hit fuel (c.length + m) (c ++ d)
        = Except.map (fun l => c ++ l) (outerPass hit fuel m d) := by
  intro fuel
  induction fuel with
  | zero => intro m c d; rfl
  | succ f ih =>
    intro m c d
    by_cases hm : m < d.length
    · have hcm : c.length + m < (c ++ d).length := by
        simp only [List.length_append]
        omega
      simp only [outerPass, if_pos hcm, if_pos hm]
      rw [getD_append_shift c d m ""]
      rw [show c.length + m + 1 = c.length + (m + 1) from by omega]
      rw [drop_append_shift c d (m + 1)]
      rw [popPass_shift hit (d.getD m "") (d.drop (m + 1)) (m + 1) c d]
      cases hres : popPass hit (d.getD m "") (d.drop (m + 1)) (m + 1) d with
      | error e => simp [Except.map]
      | ok live2 =>
        simp only [Except.map]
        rw [show c.length + (m + 1) = c.length + (m + 1) from rfl]
        exact ih (m + 1) c live2
    · have hcm : ¬ (c.length + m < (c ++ d).length) := by
        simp only [List.length_append]
        omega
      simp only [outerPass, if_neg hcm, if_neg hm]
      rfl

/-- Core of the corrected C3: when b is the only question matching an
earlier question (namely a), the loop removes exactly b: the passes before
a change nothing, the pass for a pops b at its true index, and the passes
after a change nothing. -/
theorem outerPass_unique_match (hit : String → String → Bool) :
    ∀ (p : List String) (fuel : Nat) (a b : String) (q r : List String),
      p.length < fuel →
      (∀ x ∈ p, hit x b = false) →
      hit a b = true →
      (p ++ a :: (q ++ r)).Pairwise (fun u v => hit u v = false) →
      outerPass hit fuel 0 (p ++ a :: (q ++ (b :: r)))
        = Except.ok (p ++ a :: (q ++ r)) := by
  intro p
  induction p with
  | nil =>
    intro fuel a b q r hfuel hpb hab hpw
    obtain ⟨f, rfl⟩ : ∃ f, fuel = f + 1 := ⟨fuel - 1, by omega⟩
    simp only [List.nil_append] at hpw ⊢
    have hhead : ∀ x ∈ q ++ r, hit a x = false := (List.pairwise_cons.mp hpw).1
    have hq : ∀ y ∈ q, hit a y = false := fun y hy => hhead y (by simp [hy])
    have hr : ∀ y ∈ r, hit a y = false := fun y hy => hhead y (by simp [hy])
    have hi : 0 < (a :: (q ++ (b :: r))).length := by simp
    simp only [outerPass, if_pos hi, List.getD_cons_zero, List.drop_succ_cons, List.drop_zero]
    have hlt : 0 + 1 + q.length < (a :: (q ++ (b :: r))).length := by
      simp
      omega
    rw [popPass_single_hit hit a b r hab hr q hq (0 + 1) (a :: (q ++ (b :: r))) hlt]
    have herase : (a :: (q ++ (b :: r))).eraseIdx (0 + 1 + q.length) = a :: (q ++ r) := by
      have h1 : (0 + 1 + q.length) = (a :: q).length + 0 := by
        simp only [List.length_cons, Nat.add_zero]
        omega
      rw [h1, show a :: (q ++ (b :: r)) = (a :: q) ++ (b :: r) from by simp]
      rw [eraseIdx_append_shift (a :: q) (b :: r) 0]
      simp
    rw [herase]
    exact outerPass_pairwise_low hit f 1 (a :: (q ++ r)) hpw
  | cons x p2 ih =>
    intro fuel a b q r hfuel hxb hab hpw
    obtain ⟨f, rfl⟩ : ∃ f, fuel = f + 1 := ⟨fuel - 1, by omega⟩
    simp only [List.cons_append] at hpw ⊢
    have hhead : ∀ z ∈ p2 ++ a :: (q ++ r), hit x z = false := (List.pairwise_cons.mp hpw).1
    have htail : (p2 ++ a :: (q ++ r)).Pairwise (fun u v => hit u v = false) :=
      (List.pairwise_cons.mp hpw).2
    have hxb2 : hit x b = false := hxb x (by simp)
    have hlow : ∀ z ∈ p2 ++ a :: (q ++ (b :: r)), hit x z = false := by
      intro z hz
      rcases List.mem_append.mp hz with hz1 | hz2
      · exact hhead z (List.mem_append_left _ hz1)
      · rcases List.mem_cons.mp hz2 with rfl | hz3
        · exact hhead z (by simp)
        · rcases List.mem_append.mp hz3 with hz4 | hz5
          · exact hhead z (by simp [hz4])
          · rcases List.mem_cons.mp hz5 with rfl | hz6
            · exact hxb2
            · exact hhead z (by simp [hz6])
    have hi : 0 < (x :: (p2 ++ a :: (q ++ (b :: r)))).length := by simp
    simp only [outerPass, if_pos hi, List.getD_cons_zero, List.drop_succ_cons, List.drop_zero]
    rw [popPass_all_low hit x (p2 ++ a :: (q ++ (b :: r))) hlow 1
      (x :: (p2 ++ a :: (q ++ (b :: r))))]
    have hshift := outerPass_shift hit f 0 [x] (p2 ++ a :: (q ++ (b :: r)))
    simp only [List.length_singleton, List.singleton_append, Nat.add_zero] at hshift
    show outerPass hit f (0 + 1) (x :: (p2 ++ a :: (q ++ (b :: r))))
      = Except.ok (x :: (p2 ++ a :: (q ++ r)))
    rw [show (0 + 1 : Nat) = 1 from rfl, hshift]
    rw [ih f a b q r (by simp only [List.length_cons] at hfuel; omega)
      (fun z hz => hxb z (by simp [hz])) hab htail]
    simp [Except.map]

/-- C3 (corrected): when exactly one ordered pair (a, b) of the question
list exceeds the 0.8 similarity threshold, check_duplicate_questions
removes exactly the later-indexed question b and keeps the earlier-indexed
a; the counterexample shows that with two or more matching pairs the stale
pop indices remove other questions instead. -/
theorem c3_unique_pair_drops_later (p q r : List String) (a b : String)
    (h1 : ∀ x ∈ p, ¬ (similarity x b > (0.8 : ℚ)))
    (h2 : similarity a b > (0.8 : ℚ))
    (hpw : (p ++ a :: (q ++ r)).Pairwise (fun u v => ¬ (similarity u v > (0.8 : ℚ)))) :
    check_duplicate_questions (p ++ a :: (q ++ (b :: r)))
      = Except.ok (p ++ a :: (q ++ r)) := by
  unfold check_duplicate_questions
  apply outerPass_unique_match
  · simp only [List.length_append, List.length_cons]
    omega
  · intro x hx
    exact Bool.eq_false_iff.mpr (fun ht => h1 x hx ((similarityExceeds_iff x b).mp ht))
  · exact (similarityExceeds_iff a b).mpr h2
  · exact hpw.imp (fun hn => Bool.eq_false_iff.mpr
      (fun ht => hn ((similarityExceeds_iff _ _).mp ht)))

/-- Witness for c3_unique_pair_drops_later: the near-duplicate qB of qA is
dropped, qA kept. -/
theorem c3_unique_pair_drops_later_witness :
    check_duplicate_questions [qA, qB] = Except.ok [qA] :=
  c3_unique_pair_drops_later [] [] [] qA qB (by simp)
    ((similarityExceeds_iff qA qB).mp (by decide))
    (by simp)

/-- C3 counterexample: in [qA, qB, qC, qD] the pairs (qA, qB) and (qA, qC)
both exceed the threshold.  The claim demands that qB and qC be removed and
qD kept, but after popping qB the stale index pops qD instead of qC: the
result keeps qC (later member of an above-threshold pair) and has dropped
qD (member of no above-threshold pair). -/
theorem c3_stale_index_counterexample :
    check_duplicate_questions [qA, qB, qC, qD] = Except.ok [qA, qC] ∧
      similarity qA qC > (0.8 : ℚ) ∧
      ¬ (similarity qA qD > (0.8 : ℚ)) ∧
      ¬ (similarity qB qD > (0.8 : ℚ)) ∧
      ¬ (similarity qC qD > (0.8 : ℚ)) := by
  refine ⟨rfl, (similarityExceeds_iff qA qC).mp (by decide), ?_, ?_, ?_⟩
  · intro hgt
    exact absurd ((similarityExceeds_iff qA qD).mpr hgt) (by decide)
  · intro hgt
    exact absurd ((similarityExceeds_iff qB qD).mpr hgt) (by decide)
  · intro hgt
    exact absurd ((similarityExceeds_iff qC qD).mpr hgt) (by decide)

/-- C4 (corrected): a question list in which no ordered pair exceeds the
0.8 threshold is a fixed point of suppression (so re-running is harmless
exactly when the first output retains no above-threshold pair); the
counterexample shows suppression is not idempotent in general. -/
theorem c4_no_high_pair_fixed (qs : List String)
    (h : qs.Pairwise (fun u v => ¬ (similarity u v > (0.8 : ℚ)))) :
    check_duplicate_questions qs = Except.ok qs := by
  unfold check_duplicate_questions
  exact outerPass_pairwise_low similarityExceeds qs.length 0 qs
    (h.imp (fun hn => Bool.eq_false_iff.mpr
      (fun ht => hn ((similarityExceeds_iff _ _).mp ht))))

/-- Witness for c4_no_high_pair_fixed: two unrelated questions survive
unchanged. -/
theorem c4_no_high_pair_fixed_witness :
    check_duplicate_questions [qA, qD] = Except.ok [qA, qD] := by
  apply c4_no_high_pair_fixed
  refine List.pairwise_cons.mpr ⟨?_, List.pairwise_singleton _ _⟩
  intro x hx hgt
  rw [List.mem_singleton.mp hx] at hgt
  exact absurd ((similarityExceeds_iff qA qD).mpr hgt) (by decide)

/-- C4 counterexample: suppression of [qA, qB, qC, qD] yields [qA, qC]
(the stale pop removed qD, leaving the above-threshold pair (qA, qC) in the
output), and a second run removes qC: suppression is not idempotent. -/
theorem c4_not_idempotent_counterexample :
    check_duplicate_questions [qA, qB, qC, qD] = Except.ok [qA, qC] ∧
      check_duplicate_questions [qA, qC] = Except.ok [qA] ∧
      (Except.ok [qA] : Except Unit (List String)) ≠ Except.ok [qA, qC] := by
  refine ⟨rfl, rfl, ?_⟩
  intro h
  simp at h

/-- C5 counterexample: the same article url with and without a trailing
slash normalizes identically, yet the exact-string lookup misses and a
second bundle is persisted — the at-most-one-bundle-per-normalized-URL
guarantee does not hold in the source. -/
theorem c5_trailing_slash_counterexample :
    normalizeUrl urlNoSlash = normalizeUrl urlWithSlash ∧
      urlNoSlash ≠ urlWithSlash ∧
      check_duplicate_url [(1, urlNoSlash)] urlWithSlash = none ∧
      process_generate [(1, urlNoSlash)] urlWithSlash
        = ([(1, urlNoSlash), (2, urlWithSlash)], 2) :=
  ⟨by decide, by decide, rfl, rfl⟩
